import Mathlib

/-!
Shallow embedding of the etcd provisioning tasks of `pkg/etcd/tasks.go`
(kubekey). Go errors are modelled as `Option String` (`none` = nil error);
the remote command runner and the marker-file probe are oracles supplied as
arguments; the shared pipeline cache entry `common.ETCDCluster` is an
`Option EtcdCluster` threaded explicitly, and the per-host cache entries
`common.ETCDName` / `common.ETCDExist` form a `HostCache` value.
Template rendering (`action.Template`) is external; the embedding records
the data map that would be rendered as a `RenderedConfig` value.
-/

namespace KubekeyEtcd

/-- A Go `error` value: `none` is the nil error. -/
abbrev GoError := Option String

/-- Model of `github.com/pkg/errors.WithStack`: nil stays nil, otherwise the message
is kept (the stack itself is not modelled). -/
def errorsWithStack (e : GoError) : GoError := e

/-- Model of `github.com/pkg/errors.Wrap`: by the library contract it returns nil
when `e` is nil, and otherwise annotates the message. -/
def errorsWrap (e : GoError) (msg : String) : GoError :=
  match e with
  | none => none
  | some s => some (msg ++ ": " ++ s)

/-- Model of `errors.New` from `github.com/pkg/errors`. -/
def errorsNew (msg : String) : GoError := some msg

/-- The slice of a connector host that the etcd tasks read:
`GetName()`, `GetInternalAddress()`, `GetArch()`. -/
structure Host where
  name : String
  internalAddress : String
  arch : String
  deriving DecidableEq

/-- Struct `EtcdCluster` from tasks.go: the value stored in the pipeline cache
under `common.ETCDCluster`. -/
structure EtcdCluster where
  clusterExist : Bool
  accessAddresses : String
  peerAddresses : List String
  deriving DecidableEq

/-- The per-host cache entries `common.ETCDName` and `common.ETCDExist`
(`none` = key not present in the host cache). -/
structure HostCache where
  etcdName : Option String
  etcdExist : Option Bool
  deriving DecidableEq

/-- Constant `NewCluster = "new"` from tasks.go. -/
def NewCluster : String := "new"

/-- Constant `ExistCluster = "existing"` from tasks.go. -/
def ExistCluster : String := "existing"

/-- Constant `common.BinDir` (defined in `pkg/common`, outside this file); its
concrete value is immaterial to the claims. -/
def BinDir : String := "/usr/local/bin"

/-- Constant `kubekeyapiv1alpha2.DefaultEtcdVersion` (outside this file); its
concrete value is immaterial to the claims. -/
def DefaultEtcdVersion : String := "v3.4.13"

/-- The peer entry `fmt.Sprintf("%s=https://%s:2380", etcdName, addr)`
appended to `peerAddresses` by `GetStatus` and `GenerateConfig`. -/
def peerEntry (etcdName internalAddress : String) : String :=
  etcdName ++ "=https://" ++ internalAddress ++ ":2380"

/-- Helper for `strings.Index(s, "=")` followed by slicing: drop characters
up to and including the first `'='`; `none` when no `'='` occurs. -/
def goDropThroughFirstEq : List Char → Option (List Char)
  | [] => none
  | c :: cs => if c = '=' then some cs else goDropThroughFirstEq cs

/-- The Go expression `etcdEnv[strings.Index(etcdEnv, "=")+1:]`: everything
after the first `'='`, or the whole string when there is none (Go's
`Index` returns -1 then, and `s[0:]` is `s`). -/
def goAfterFirstEq (s : String) : String :=
  match goDropThroughFirstEq s.data with
  | some rest => String.mk rest
  | none => s

/-- The oracle for the two remote probes issued by `GetStatus.Execute`:
`runtime.GetRunner().FileExist("/etc/etcd.env")` and
`runtime.GetRunner().SudoCmd("cat /etc/etcd.env | grep ETCD_NAME", true)`,
each returning a value and a Go error. -/
structure Runner where
  fileExistEtcdEnv : Bool × GoError
  catEtcdEnvGrepName : String × GoError
  deriving DecidableEq

/-- Result of `GetStatus.Execute`: the returned error, the pipeline-cache
entry `common.ETCDCluster` afterwards, and the host cache afterwards. -/
structure GetStatusOut where
  err : GoError
  pipeline : Option EtcdCluster
  hostCache : HostCache
  deriving DecidableEq

/-- Embeds `GetStatus.Execute` from tasks.go. On an error return the caches are
exactly the inputs: every `return err` in the source happens before any
cache write. -/
def GetStatus.Execute (r : Runner) (host : Host)
    (pipeline : Option EtcdCluster) (hc : HostCache) : GetStatusOut :=
  let (exist, ferr) := r.fileExistEtcdEnv
  match ferr with
  | some e => ⟨some e, pipeline, hc⟩
  | none =>
    let cluster : EtcdCluster :=
      { clusterExist := true, accessAddresses := "", peerAddresses := [] }
    if exist then
      let (etcdEnv, cerr) := r.catEtcdEnvGrepName
      match cerr with
      | some e => ⟨some e, pipeline, hc⟩
      | none =>
        let etcdName := goAfterFirstEq etcdEnv
        let hc' : HostCache := { etcdName := some etcdName, etcdExist := some true }
        match pipeline with
        | some c =>
          ⟨none,
           some { c with
                  peerAddresses :=
                    c.peerAddresses ++ [peerEntry etcdName host.internalAddress],
                  clusterExist := true },
           hc'⟩
        | none =>
          ⟨none,
           some { cluster with
                  peerAddresses :=
                    cluster.peerAddresses ++ [peerEntry etcdName host.internalAddress],
                  clusterExist := true },
           hc'⟩
    else
      let hc' : HostCache :=
        { etcdName := some ("etcd-" ++ host.name), etcdExist := some false }
      match pipeline with
      | some _ => ⟨none, pipeline, hc'⟩
      | none => ⟨none, some { cluster with clusterExist := false }, hc'⟩

/-- Embeds `generateCertsFiles` from tasks.go: `runtime.GetHostsByRole(common.ETCD)`
and `runtime.GetHostsByRole(common.Master)` are passed as the two lists. -/
def generateCertsFiles (etcdHosts masterHosts : List Host) : List String :=
  ["ca.pem", "ca-key.pem"]
    ++ etcdHosts.flatMap (fun host =>
        ["admin-" ++ host.name ++ ".pem",
         "admin-" ++ host.name ++ "-key.pem",
         "member-" ++ host.name ++ ".pem",
         "member-" ++ host.name ++ "-key.pem"])
    ++ masterHosts.flatMap (fun host =>
        ["node-" ++ host.name ++ ".pem",
         "node-" ++ host.name ++ "-key.pem"])

/-- Embeds `GenerateAccessAddress.Execute` from tasks.go. Returns the Go error and
the pipeline-cache entry afterwards. -/
def GenerateAccessAddress.Execute (etcdHosts : List Host)
    (pipeline : Option EtcdCluster) : GoError × Option EtcdCluster :=
  let addrList :=
    etcdHosts.map (fun host => "https://" ++ host.internalAddress ++ ":2379")
  let accessAddresses := String.intercalate "," addrList
  match pipeline with
  | some cluster => (none, some { cluster with accessAddresses := accessAddresses })
  | none => (errorsNew "get etcd cluster status by pipeline cache failed", pipeline)

/-- The `export ETCDCTL_...;` prefix shared by the health-check, member-add
and member-list commands in tasks.go. -/
def etcdctlEnv (host : Host) : String :=
  "export ETCDCTL_API=2;" ++
  "export ETCDCTL_CERT_FILE=\x27/etc/ssl/etcd/ssl/admin-" ++ host.name ++ ".pem\x27;" ++
  "export ETCDCTL_KEY_FILE=\x27/etc/ssl/etcd/ssl/admin-" ++ host.name ++ "-key.pem\x27;" ++
  "export ETCDCTL_CA_FILE=\x27/etc/ssl/etcd/ssl/ca.pem\x27;"

/-- The `checkHealthCmd` string built in `healthCheck` in tasks.go. -/
def checkHealthCmd (host : Host) (cluster : EtcdCluster) : String :=
  etcdctlEnv host ++ BinDir ++ "/etcdctl --endpoints=" ++ cluster.accessAddresses ++
    " cluster-health | grep -q \x27cluster is healthy\x27"

/-- Embeds `healthCheck` from tasks.go: run the health command, wrap its error. -/
def healthCheck (run : String → String × GoError) (host : Host)
    (cluster : EtcdCluster) : GoError :=
  match (run (checkHealthCmd host cluster)).2 with
  | some e => errorsWrap (errorsWithStack (some e)) "etcd health check failed"
  | none => none

/-- Embeds `HealthCheck.Execute` from tasks.go. The second component records the
commands actually issued to the runner. -/
def HealthCheck.Execute (run : String → String × GoError) (host : Host)
    (pipeline : Option EtcdCluster) : GoError × List String :=
  match pipeline with
  | some cluster => (healthCheck run host cluster, [checkHealthCmd host cluster])
  | none => (errorsNew "get etcd cluster status by pipeline cache failed", [])

/-- The data map handed to `action.Template` by `refreshConfig`. -/
structure RenderedConfig where
  tag : String
  name : String
  ip : String
  hostname : String
  state : String
  peerAddresses : String
  unsupportedArch : Bool
  arch : String
  deriving DecidableEq

/-- Embeds `refreshConfig` from tasks.go: builds the template data; the template
engine itself is external, so the embedding returns the data map. -/
def refreshConfig (host : Host) (endpoints : List String)
    (state etcdName : String) : RenderedConfig :=
  let unsupportedArch : Bool := host.arch != "amd64"
  { tag := DefaultEtcdVersion
    name := etcdName
    ip := host.internalAddress
    hostname := host.name
    state := state
    peerAddresses := String.intercalate "," endpoints
    unsupportedArch := unsupportedArch
    arch := host.arch }

/-- Result of `GenerateConfig.Execute` / `RefreshConfig.Execute`: the Go
error, the pipeline-cache entry afterwards, and the config rendered (if
the code reached the render). -/
structure ConfigOut where
  err : GoError
  pipeline : Option EtcdCluster
  rendered : Option RenderedConfig
  deriving DecidableEq

/-- Embeds `GenerateConfig.Execute` from tasks.go: appends this host's peer entry
to the shared list, then renders with `"new"` exactly when the shared
`clusterExist` is false. -/
def GenerateConfig.Execute (host : Host) (hc : HostCache)
    (pipeline : Option EtcdCluster) : ConfigOut :=
  match hc.etcdName with
  | none => ⟨errorsNew "get etcd node status by host label failed", pipeline, none⟩
  | some etcdName =>
    match pipeline with
    | some cluster =>
      let cluster' :=
        { cluster with
          peerAddresses :=
            cluster.peerAddresses ++ [peerEntry etcdName host.internalAddress] }
      if !cluster'.clusterExist then
        ⟨none, some cluster',
         some (refreshConfig host cluster'.peerAddresses NewCluster etcdName)⟩
      else
        ⟨none, some cluster',
         some (refreshConfig host cluster'.peerAddresses ExistCluster etcdName)⟩
    | none => ⟨errorsNew "get etcd cluster status by pipeline cache failed", pipeline, none⟩

/-- Embeds `RefreshConfig.Execute` from tasks.go: re-renders only; the source
performs no pipeline-cache write and no append, so the pipeline entry is
returned unchanged. -/
def RefreshConfig.Execute (toExisting : Bool) (host : Host) (hc : HostCache)
    (pipeline : Option EtcdCluster) : ConfigOut :=
  match hc.etcdName with
  | none => ⟨errorsNew "get etcd node status by host label failed", pipeline, none⟩
  | some etcdName =>
    match pipeline with
    | some cluster =>
      if toExisting then
        ⟨none, pipeline,
         some (refreshConfig host cluster.peerAddresses ExistCluster etcdName)⟩
      else if !cluster.clusterExist then
        ⟨none, pipeline,
         some (refreshConfig host cluster.peerAddresses NewCluster etcdName)⟩
      else
        ⟨none, pipeline,
         some (refreshConfig host cluster.peerAddresses ExistCluster etcdName)⟩
    | none => ⟨errorsNew "get etcd cluster status by pipeline cache failed", pipeline, none⟩

/-- The `joinMemberCmd` string built in `JoinMember.Execute`. -/
def joinMemberCmd (host : Host) (cluster : EtcdCluster) (etcdName : String) : String :=
  etcdctlEnv host ++ BinDir ++ "/etcdctl --endpoints=" ++ cluster.accessAddresses ++
    " member add " ++ etcdName ++ " " ++
    ("https://" ++ host.internalAddress ++ ":2380")

/-- Result of a command-issuing step: the Go error and the commands that
were actually sent to the runner. -/
structure CmdOut where
  err : GoError
  commands : List String
  deriving DecidableEq

/-- Embeds `JoinMember.Execute` from tasks.go. -/
def JoinMember.Execute (run : String → String × GoError) (host : Host)
    (hc : HostCache) (pipeline : Option EtcdCluster) : CmdOut :=
  match hc.etcdName with
  | none => ⟨errorsNew "get etcd node status by host label failed", []⟩
  | some etcdName =>
    match pipeline with
    | some cluster =>
      let cmd := joinMemberCmd host cluster etcdName
      match (run cmd).2 with
      | some e => ⟨errorsWrap (errorsWithStack (some e)) "add etcd member failed", [cmd]⟩
      | none => ⟨none, [cmd]⟩
    | none => ⟨errorsNew "get etcd cluster status by pipeline cache failed", []⟩

/-- Model of Go `strings.Contains` on the character lists: some tail of `hay` has
`needle` as a prefix. -/
def goContainsAux (needle : List Char) : List Char → Bool
  | [] => needle.isEmpty
  | c :: rest => needle.isPrefixOf (c :: rest) || goContainsAux needle rest

/-- Go's `strings.Contains(s, substr)`. -/
def goStringsContains (s substr : String) : Bool :=
  goContainsAux substr.data s.data

/-- The `checkMemberCmd` string built in `CheckMember.Execute`. -/
def checkMemberCmd (host : Host) (cluster : EtcdCluster) : String :=
  etcdctlEnv host ++ BinDir ++ "/etcdctl --no-sync --endpoints=" ++
    cluster.accessAddresses ++ " member list"

/-- Embeds `CheckMember.Execute` from tasks.go. Note: in the missing-endpoint
branch the source wraps the `err` variable of the preceding `SudoCmd`,
which is nil there, so `errorsWrap (errorsWithStack none) ...` is what the
source returns. -/
def CheckMember.Execute (run : String → String × GoError) (host : Host)
    (pipeline : Option EtcdCluster) : CmdOut :=
  match pipeline with
  | some cluster =>
    let cmd := checkMemberCmd host cluster
    let (memberList, err) := run cmd
    match err with
    | some e => ⟨errorsWrap (errorsWithStack (some e)) "list etcd member failed", [cmd]⟩
    | none =>
      if !(goStringsContains memberList
            ("https://" ++ host.internalAddress ++ ":2379")) then
        ⟨errorsWrap (errorsWithStack none) "add etcd member failed", [cmd]⟩
      else
        ⟨none, [cmd]⟩
  | none => ⟨errorsNew "get etcd cluster status by pipeline cache failed", []⟩

/-- One step of the external task runner visiting a host: the shared-state
operations the claims quantify over. -/
inductive OpStep where
  | getStatus (host : Host) (r : Runner)
  | generateAccessAddress (etcdHosts : List Host)
  | generateConfig (host : Host)
  | refreshConfig (toExisting : Bool) (host : Host)

/-- The run-scoped mutable state: the pipeline-cache entry and the per-host
caches, keyed by host name. -/
structure RunState where
  pipeline : Option EtcdCluster
  hostCaches : String → HostCache

/-- The state before any task has run: both caches empty. -/
def initialRunState : RunState :=
  { pipeline := none, hostCaches := fun _ => ⟨none, none⟩ }

/-- Execute one step against the shared state. -/
def runStep (s : RunState) : OpStep → RunState
  | .getStatus host r =>
    let out := GetStatus.Execute r host s.pipeline (s.hostCaches host.name)
    { pipeline := out.pipeline
      hostCaches := fun n => if n = host.name then out.hostCache else s.hostCaches n }
  | .generateAccessAddress etcdHosts =>
    { s with pipeline := (GenerateAccessAddress.Execute etcdHosts s.pipeline).2 }
  | .generateConfig host =>
    { s with
      pipeline := (GenerateConfig.Execute host (s.hostCaches host.name) s.pipeline).pipeline }
  | .refreshConfig t host =>
    { s with
      pipeline := (RefreshConfig.Execute t host (s.hostCaches host.name) s.pipeline).pipeline }

/-- Execute a sequence of steps left to right. -/
def runSteps (s : RunState) : List OpStep → RunState
  | [] => s
  | st :: rest => runSteps (runStep s st) rest

/-- The member-name component of a `"name=url"` peer entry: the text before
the first `'='`. -/
def entryMemberName (s : String) : String :=
  String.mk (s.data.takeWhile (fun c => c != '='))

/-- The schedule the aggregation claims quantify over: every host is
visited by `GetStatus` and later by `GenerateConfig`. -/
def twoPhase (runners : Host → Runner) (hosts : List Host) : List OpStep :=
  hosts.map (fun h => OpStep.getStatus h (runners h))
    ++ hosts.map OpStep.generateConfig

/-- Concrete fixture host. -/
def hostA : Host := ⟨"node1", "10.0.0.1", "amd64"⟩

/-- Concrete fixture host. -/
def hostB : Host := ⟨"node2", "10.0.0.2", "amd64"⟩

/-- Concrete fixture host (non-amd64, control-plane only). -/
def hostC : Host := ⟨"node3", "10.0.0.3", "arm64"⟩

/-- A runner whose host already runs etcd: the marker file exists and the
env file names the member `etcd-node1`. -/
def runnerExisting : Runner := ⟨(true, none), ("ETCD_NAME=etcd-node1", none)⟩

/-- A runner whose host has no etcd installed: the marker file is absent. -/
def freshRunner : Runner := ⟨(false, none), ("", none)⟩

/-- A runner whose marker-file existence check fails. -/
def runnerFileErr : Runner := ⟨(false, some "io error"), ("", none)⟩

/-- A runner whose env-file read fails after the marker file was found. -/
def runnerCatErr : Runner := ⟨(true, none), ("", some "io error")⟩

/-- A command oracle for which every command succeeds with empty output. -/
def runAllOk : String → String × GoError := fun _ => ("", none)

/-- A run state whose shared cluster entry records an existing cluster. -/
def stateExisting : RunState :=
  { pipeline := some ⟨true, "", []⟩, hostCaches := fun _ => ⟨none, none⟩ }

/-! ## Helper lemmas -/

theorem string_mk_data (s : String) : String.mk s.data = s := rfl

theorem string_append_left_cancel {p a b : String} (h : p ++ a = p ++ b) : a = b := by
  have hd : p.data ++ a.data = p.data ++ b.data := by
    simpa [String.data_append] using congrArg String.data h
  have hab := List.append_cancel_left hd
  calc a = String.mk a.data := rfl
    _ = String.mk b.data := by rw [hab]
    _ = b := rfl

theorem takeWhile_append_stop (p : Char → Bool) :
    ∀ (xs : List Char), (∀ x ∈ xs, p x = true) →
      ∀ (y : Char), p y = false → ∀ (ys : List Char),
        (xs ++ y :: ys).takeWhile p = xs := by
  intro xs
  induction xs with
  | nil => intro _ y hy ys; simp [List.takeWhile_cons, hy]
  | cons a t ih =>
    intro h y hy ys
    have ha : p a = true := h a (by simp)
    simp [List.takeWhile_cons, ha, ih (fun x hx => h x (by simp [hx])) y hy ys]

theorem peerEntry_data (nm addr : String) :
    (peerEntry nm addr).data =
      nm.data ++ '=' :: ("https://".data ++ (addr.data ++ ":2380".data)) := by
  have hlit : "=https://".data = '=' :: "https://".data := rfl
  simp [peerEntry, String.data_append, hlit]

theorem entryMemberName_peerEntry (nm addr : String) (h : '=' ∉ nm.data) :
    entryMemberName (peerEntry nm addr) = nm := by
  have h1 : ∀ x ∈ nm.data, (x != '=') = true := by
    intro x hx
    have hxne : x ≠ '=' := fun he => h (he ▸ hx)
    simpa using hxne
  show String.mk ((peerEntry nm addr).data.takeWhile (fun c => c != '=')) = nm
  rw [peerEntry_data, takeWhile_append_stop _ nm.data h1 '=' (by decide)]

theorem goDropThroughFirstEq_append (xs : List Char) (h : '=' ∉ xs) (ys : List Char) :
    goDropThroughFirstEq (xs ++ '=' :: ys) = some ys := by
  induction xs with
  | nil => simp [goDropThroughFirstEq]
  | cons a t ih =>
    have ha : ¬ (a = '=') := fun he => h (by simp [he])
    have ht : '=' ∉ t := fun hm => h (by simp [hm])
    simp [goDropThroughFirstEq, ha, ih ht]

theorem goAfterFirstEq_etcdNameLine (v : String) :
    goAfterFirstEq ("ETCD_NAME=" ++ v) = v := by
  have hlit : "ETCD_NAME=".data = "ETCD_NAME".data ++ ['='] := rfl
  have hd : ("ETCD_NAME=" ++ v).data = "ETCD_NAME".data ++ '=' :: v.data := by
    rw [String.data_append, hlit, List.append_assoc]
    rfl
  have hne : '=' ∉ "ETCD_NAME".data := by decide
  unfold goAfterFirstEq
  rw [hd, goDropThroughFirstEq_append _ hne]

theorem perm_toFinset {α : Type} [DecidableEq α] {l l' : List α} (p : l.Perm l') :
    l.toFinset = l'.toFinset := by
  apply Finset.ext
  intro a
  simp [List.mem_toFinset, p.mem_iff]

theorem runSteps_append (l1 l2 : List OpStep) :
    ∀ s, runSteps s (l1 ++ l2) = runSteps (runSteps s l1) l2 := by
  induction l1 with
  | nil => intro s; rfl
  | cons st rest ih => intro s; simp [runSteps, ih]

theorem getStatus_fresh_some (r : Runner) (host : Host) (c : EtcdCluster)
    (hc : HostCache) (hf : r.fileExistEtcdEnv = (false, none)) :
    GetStatus.Execute r host (some c) hc =
      ⟨none, some c, ⟨some ("etcd-" ++ host.name), some false⟩⟩ := by
  simp [GetStatus.Execute, hf]

theorem getStatus_fresh_none (r : Runner) (host : Host) (hc : HostCache)
    (hf : r.fileExistEtcdEnv = (false, none)) :
    GetStatus.Execute r host none hc =
      ⟨none, some ⟨false, "", []⟩, ⟨some ("etcd-" ++ host.name), some false⟩⟩ := by
  simp [GetStatus.Execute, hf]

theorem getStatus_fresh_hostCache (r : Runner) (host : Host)
    (p : Option EtcdCluster) (hc : HostCache)
    (hf : r.fileExistEtcdEnv = (false, none)) :
    (GetStatus.Execute r host p hc).hostCache =
      ⟨some ("etcd-" ++ host.name), some false⟩ := by
  cases p <;> simp [GetStatus.Execute, hf]

theorem generateConfig_pipeline (host : Host) (hc : HostCache) (c : EtcdCluster)
    (nm : String) (hnm : hc.etcdName = some nm) :
    (GenerateConfig.Execute host hc (some c)).pipeline =
      some { c with
             peerAddresses := c.peerAddresses ++ [peerEntry nm host.internalAddress] } := by
  cases hcl : c.clusterExist <;> simp [GenerateConfig.Execute, hnm, hcl]

theorem refreshConfig_pipeline (t : Bool) (host : Host) (hc : HostCache)
    (p : Option EtcdCluster) :
    (RefreshConfig.Execute t host hc p).pipeline = p := by
  cases hnm : hc.etcdName <;> cases p <;> cases t <;>
    simp only [RefreshConfig.Execute, hnm] <;>
    first
      | rfl
      | (split <;> first | rfl | (split <;> rfl))

theorem phase1_fresh_pipeline (runners : Host → Runner) :
    ∀ (hosts : List Host) (s : RunState) (c : EtcdCluster),
      (∀ h ∈ hosts, (runners h).fileExistEtcdEnv = (false, none)) →
      s.pipeline = some c →
      (runSteps s (hosts.map (fun h => OpStep.getStatus h (runners h)))).pipeline = some c := by
  intro hosts
  induction hosts with
  | nil => intro s c _ hp; simpa [runSteps] using hp
  | cons h t ih =>
    intro s c hf hp
    have hstep : (runStep s (OpStep.getStatus h (runners h))).pipeline = some c := by
      simp [runStep, hp, getStatus_fresh_some _ _ _ _ (hf h (by simp))]
    exact ih (runStep s (OpStep.getStatus h (runners h))) c
      (fun x hx => hf x (by simp [hx])) hstep

theorem phase1_fresh_caches (runners : Host → Runner) :
    ∀ (hosts : List Host) (s : RunState),
      (∀ h ∈ hosts, (runners h).fileExistEtcdEnv = (false, none)) →
      ∀ n, (runSteps s (hosts.map (fun h => OpStep.getStatus h (runners h)))).hostCaches n =
        if n ∈ hosts.map Host.name then HostCache.mk (some ("etcd-" ++ n)) (some false)
        else s.hostCaches n := by
  intro hosts
  induction hosts with
  | nil => intro s _ n; simp [runSteps]
  | cons h t ih =>
    intro s hf n
    have hstep := ih (runStep s (OpStep.getStatus h (runners h)))
      (fun x hx => hf x (by simp [hx])) n
    show (runSteps (runStep s (OpStep.getStatus h (runners h)))
      (t.map (fun h => OpStep.getStatus h (runners h)))).hostCaches n = _
    rw [hstep]
    by_cases hmem : n ∈ t.map Host.name
    · simp [hmem]
    · by_cases hn : n = h.name
      · subst hn
        simp [hmem, runStep,
          getStatus_fresh_hostCache _ _ _ _ (hf h (by simp))]
      · simp [hmem, hn, runStep]

theorem phase2_generateConfig :
    ∀ (hosts : List Host) (s : RunState) (c : EtcdCluster),
      s.pipeline = some c →
      (∀ h ∈ hosts, (s.hostCaches h.name).etcdName = some ("etcd-" ++ h.name)) →
      ∃ c' : EtcdCluster,
        runSteps s (hosts.map OpStep.generateConfig) =
          { pipeline := some c', hostCaches := s.hostCaches }
        ∧ c'.peerAddresses = c.peerAddresses ++
            hosts.map (fun h => peerEntry ("etcd-" ++ h.name) h.internalAddress) := by
  intro hosts
  induction hosts with
  | nil =>
    intro s c hp _
    refine ⟨c, ?_, by simp⟩
    obtain ⟨p, hcs⟩ := s
    cases hp
    rfl
  | cons h t ih =>
    intro s c hp hcache
    have hstep : runStep s (OpStep.generateConfig h) =
        { pipeline := some { c with
            peerAddresses :=
              c.peerAddresses ++ [peerEntry ("etcd-" ++ h.name) h.internalAddress] },
          hostCaches := s.hostCaches } := by
      simp [runStep, hp, generateConfig_pipeline h _ c _ (hcache h (by simp))]
    obtain ⟨c', hrun, hpeers⟩ := ih (runStep s (OpStep.generateConfig h))
      { c with peerAddresses :=
          c.peerAddresses ++ [peerEntry ("etcd-" ++ h.name) h.internalAddress] }
      (by rw [hstep]) (by rw [hstep]; exact fun x hx => hcache x (by simp [hx]))
    refine ⟨c', ?_, ?_⟩
    · show runSteps (runStep s (OpStep.generateConfig h))
        (t.map OpStep.generateConfig) = _
      rw [hrun, hstep]
    · rw [hpeers]
      simp

theorem runStep_preserves_clusterExist (s : RunState) (st : OpStep) (c : EtcdCluster)
    (hp : s.pipeline = some c) (hex : c.clusterExist = true) :
    ∃ c', (runStep s st).pipeline = some c' ∧ c'.clusterExist = true := by
  cases st with
  | getStatus host r =>
    show ∃ c', (GetStatus.Execute r host s.pipeline (s.hostCaches host.name)).pipeline
      = some c' ∧ _
    rw [hp]
    rcases hfe : r.fileExistEtcdEnv with ⟨exist, ferr⟩
    cases ferr with
    | some e => exact ⟨c, by simp [GetStatus.Execute, hfe], hex⟩
    | none =>
      cases exist with
      | true =>
        rcases hce : r.catEtcdEnvGrepName with ⟨envOut, cerr⟩
        cases cerr with
        | some e => exact ⟨c, by simp [GetStatus.Execute, hfe, hce], hex⟩
        | none =>
          exact ⟨{ c with
              clusterExist := true
              peerAddresses := c.peerAddresses ++
                [peerEntry (goAfterFirstEq envOut) host.internalAddress] },
            by simp [GetStatus.Execute, hfe, hce], rfl⟩
      | false => exact ⟨c, by simp [GetStatus.Execute, hfe], hex⟩
  | generateAccessAddress etcdHosts =>
    exact ⟨{ c with
        accessAddresses := String.intercalate ","
          (etcdHosts.map (fun host => "https://" ++ host.internalAddress ++ ":2379")) },
      by simp [runStep, GenerateAccessAddress.Execute, hp], hex⟩
  | generateConfig host =>
    cases hnm : (s.hostCaches host.name).etcdName with
    | none => exact ⟨c, by simp [runStep, GenerateConfig.Execute, hp, hnm], hex⟩
    | some nm =>
      exact ⟨{ c with
          peerAddresses := c.peerAddresses ++ [peerEntry nm host.internalAddress] },
        by simp [runStep, hp, generateConfig_pipeline host _ c nm hnm], hex⟩
  | refreshConfig t host =>
    exact ⟨c, by simp [runStep, refreshConfig_pipeline, hp], hex⟩

/-! ## Claim theorems -/

/-- C2: the cluster-existence flag is monotone. For every interleaving of
`GetStatus`, `GenerateAccessAddress`, `GenerateConfig` and `RefreshConfig`
steps: once the shared state's `clusterExist` field is true, it is still
true (and the shared entry still present) after any further sequence of
these operations. -/
theorem clusterExist_monotone (steps : List OpStep) (s : RunState) (c : EtcdCluster)
    (hp : s.pipeline = some c) (hex : c.clusterExist = true) :
    ∃ c', (runSteps s steps).pipeline = some c' ∧ c'.clusterExist = true := by
  induction steps generalizing s c with
  | nil => exact ⟨c, hp, hex⟩
  | cons st rest ih =>
    obtain ⟨c', hp', hex'⟩ := runStep_preserves_clusterExist s st c hp hex
    exact ih (runStep s st) c' hp' hex'

/-- Witness for C2 at a concrete run: an existing cluster stays marked as
existing across one step of each kind, including a fresh-host probe. -/
theorem clusterExist_monotone_witness :
    ∃ c', (runSteps stateExisting
        [OpStep.generateAccessAddress [hostA], OpStep.generateConfig hostA,
         OpStep.refreshConfig true hostA,
         OpStep.getStatus hostB freshRunner]).pipeline = some c'
      ∧ c'.clusterExist = true :=
  clusterExist_monotone
    [OpStep.generateAccessAddress [hostA], OpStep.generateConfig hostA,
     OpStep.refreshConfig true hostA, OpStep.getStatus hostB freshRunner]
    stateExisting ⟨true, "", []⟩ rfl rfl

/-- C3 (code evaluated at the failing input): the member-list command
succeeds with output `""`, which does not contain the host's client
endpoint `https://10.0.0.1:2379`, yet `CheckMember.Execute` returns the
nil error after having issued the command: the source wraps the nil `err`
of the preceding `SudoCmd` call, and `errors.Wrap(nil, msg)` is nil, so
the intended "add etcd member failed" error is silently dropped. -/
theorem checkMember_swallows_missing_member :
    goStringsContains "" ("https://" ++ hostA.internalAddress ++ ":2379") = false
    ∧ (CheckMember.Execute runAllOk hostA
        (some ⟨true, "https://10.0.0.1:2379", []⟩)).err = none
    ∧ (CheckMember.Execute runAllOk hostA
        (some ⟨true, "https://10.0.0.1:2379", []⟩)).commands ≠ [] :=
  ⟨by decide, rfl, by decide⟩

/-- C5: `RefreshConfig` with `ToExisting = true` renders the config with
token `"existing"`, for every host, every cached member name and every
shared cluster state, regardless of the state's `clusterExist` flag. -/
theorem refreshConfig_toExisting_always_existing (host : Host) (hc : HostCache)
    (c : EtcdCluster) (nm : String) (hnm : hc.etcdName = some nm) :
    ∃ cfg, (RefreshConfig.Execute true host hc (some c)).rendered = some cfg
      ∧ cfg.state = ExistCluster := by
  refine ⟨refreshConfig host c.peerAddresses ExistCluster nm, ?_, rfl⟩
  simp [RefreshConfig.Execute, hnm]

/-- Witness for C5 at a concrete input whose `clusterExist` is false: the
token is still `"existing"`. -/
theorem refreshConfig_toExisting_always_existing_witness :
    ∃ cfg, (RefreshConfig.Execute true hostA ⟨some "etcd-node1", some false⟩
        (some ⟨false, "", []⟩)).rendered = some cfg
      ∧ cfg.state = ExistCluster :=
  refreshConfig_toExisting_always_existing hostA ⟨some "etcd-node1", some false⟩
    ⟨false, "", []⟩ "etcd-node1" rfl

/-- C7: every consumer of the shared cluster state returns an error when
the pipeline cache has no `ETCDCluster` entry — `GenerateAccessAddress`,
`HealthCheck`, `GenerateConfig`, `RefreshConfig`, `JoinMember` and
`CheckMember` all fail, render nothing (so no token, in particular not
`"new"`, is ever emitted) and issue no command. -/
theorem missing_state_aborts (run : String → String × GoError)
    (etcdHosts : List Host) (host : Host) (hc : HostCache) (t : Bool) :
    ((GenerateAccessAddress.Execute etcdHosts none).1.isSome = true
      ∧ (GenerateAccessAddress.Execute etcdHosts none).2 = none)
    ∧ ((HealthCheck.Execute run host none).1.isSome = true
      ∧ (HealthCheck.Execute run host none).2 = [])
    ∧ ((GenerateConfig.Execute host hc none).err.isSome = true
      ∧ (GenerateConfig.Execute host hc none).rendered = none)
    ∧ ((RefreshConfig.Execute t host hc none).err.isSome = true
      ∧ (RefreshConfig.Execute t host hc none).rendered = none)
    ∧ ((JoinMember.Execute run host hc none).err.isSome = true
      ∧ (JoinMember.Execute run host hc none).commands = [])
    ∧ ((CheckMember.Execute run host none).err.isSome = true
      ∧ (CheckMember.Execute run host none).commands = []) := by
  cases hnm : hc.etcdName <;>
    simp [GenerateAccessAddress.Execute, HealthCheck.Execute, GenerateConfig.Execute,
      RefreshConfig.Execute, JoinMember.Execute, CheckMember.Execute, errorsNew, hnm]

/-- C9 counterexample: against a shared state whose `accessAddresses` is
empty, `healthCheck` still returns the nil error whenever the shelled-out
`etcdctl cluster-health` command reports success — the code never inspects
`accessAddresses`, so emptiness alone is not reported as a failure. -/
theorem healthCheck_empty_access_counterexample :
    (⟨true, "", []⟩ : EtcdCluster).accessAddresses = ""
    ∧ healthCheck runAllOk hostA ⟨true, "", []⟩ = none :=
  ⟨rfl, rfl⟩

/-- C9 (amended): `healthCheck` returns an error exactly when the executed
cluster-health command fails; it performs no emptiness check of its own on
`accessAddresses`. -/
theorem healthCheck_err_iff_cmd_fails (run : String → String × GoError)
    (host : Host) (c : EtcdCluster) :
    (healthCheck run host c).isSome = ((run (checkHealthCmd host c)).2).isSome := by
  cases h : (run (checkHealthCmd host c)).2 with
  | none => simp [healthCheck, h]
  | some e => simp [healthCheck, h, errorsWrap, errorsWithStack]

/-- C10: `RefreshConfig` leaves the shared cluster state unchanged for
every host, cache content and `ToExisting` value — the pipeline entry is
returned exactly as it was — and any number of refresh steps leaves the
whole run state (peer list included) unchanged. -/
theorem refreshConfig_no_state_mutation (t : Bool) (host : Host) (hc : HostCache)
    (p : Option EtcdCluster) (steps : List (Bool × Host)) (s : RunState) :
    (RefreshConfig.Execute t host hc p).pipeline = p
    ∧ runSteps s (steps.map (fun th => OpStep.refreshConfig th.1 th.2)) = s := by
  refine ⟨refreshConfig_pipeline t host hc p, ?_⟩
  induction steps generalizing s with
  | nil => rfl
  | cons th rest ih =>
    show runSteps (runStep s (OpStep.refreshConfig th.1 th.2)) _ = s
    have hstep : runStep s (OpStep.refreshConfig th.1 th.2) = s := by
      show { s with pipeline := _ } = s
      rw [refreshConfig_pipeline]
    rw [hstep, ih]

/-- C4: for every host whose cache holds a member name and every present
shared state, `GenerateConfig` appends this host's peer entry to the
shared list and renders with bootstrap token `"new"` exactly when the
shared `clusterExist` flag is false at render time (`"existing"`
otherwise), and the rendered `peerAddresses` value is the comma-join of
the full accumulated list at render time, including this host's entry. -/
theorem generateConfig_token_and_full_peers (host : Host) (hc : HostCache)
    (c : EtcdCluster) (nm : String) (hnm : hc.etcdName = some nm) :
    ∃ cfg, (GenerateConfig.Execute host hc (some c)).rendered = some cfg
      ∧ cfg.state = (if c.clusterExist then ExistCluster else NewCluster)
      ∧ (cfg.state = NewCluster ↔ c.clusterExist = false)
      ∧ cfg.peerAddresses = String.intercalate ","
          (c.peerAddresses ++ [peerEntry nm host.internalAddress])
      ∧ (GenerateConfig.Execute host hc (some c)).pipeline =
          some { c with
                 peerAddresses :=
                   c.peerAddresses ++ [peerEntry nm host.internalAddress] } := by
  refine ⟨refreshConfig host (c.peerAddresses ++ [peerEntry nm host.internalAddress])
      (if c.clusterExist then ExistCluster else NewCluster) nm,
    ?_, rfl, ?_, rfl, generateConfig_pipeline host hc c nm hnm⟩
  · cases hcl : c.clusterExist <;> simp [GenerateConfig.Execute, hnm, hcl]
  · cases hcl : c.clusterExist <;> simp [refreshConfig, hcl, NewCluster, ExistCluster]

/-- Witness for C4 at a concrete fresh state: the rendered token is
`"new"` and the rendered peer list is this host's own entry. -/
theorem generateConfig_token_and_full_peers_witness :
    ∃ cfg, (GenerateConfig.Execute hostA ⟨some "etcd-node1", some false⟩
        (some ⟨false, "", []⟩)).rendered = some cfg
      ∧ cfg.state = NewCluster
      ∧ cfg.peerAddresses = "etcd-node1=https://10.0.0.1:2380" := by
  obtain ⟨cfg, h1, h2, _, h4, _⟩ := generateConfig_token_and_full_peers hostA
    ⟨some "etcd-node1", some false⟩ ⟨false, "", []⟩ "etcd-node1" rfl
  exact ⟨cfg, h1, by simpa using h2, by simpa using h4⟩

/-- C6: the certificate file-set derivation is deterministic and
order-independent — permuting the member-role list and the control-plane
list yields the same set of filenames — the set always contains `ca.pem`
and `ca-key.pem`, the four admin/member files of every member-role host
and the two node files of every control-plane host, and for 2 member-role
hosts plus 1 control-plane-only host it has exactly 12 distinct
filenames. -/
theorem generateCertsFiles_set (e1 e2 m1 m2 : List Host)
    (he : e1.Perm e2) (hm : m1.Perm m2) :
    (generateCertsFiles e1 m1).toFinset = (generateCertsFiles e2 m2).toFinset
    ∧ "ca.pem" ∈ generateCertsFiles e1 m1
    ∧ "ca-key.pem" ∈ generateCertsFiles e1 m1
    ∧ (∀ h ∈ e1, "admin-" ++ h.name ++ ".pem" ∈ generateCertsFiles e1 m1
        ∧ "admin-" ++ h.name ++ "-key.pem" ∈ generateCertsFiles e1 m1
        ∧ "member-" ++ h.name ++ ".pem" ∈ generateCertsFiles e1 m1
        ∧ "member-" ++ h.name ++ "-key.pem" ∈ generateCertsFiles e1 m1)
    ∧ (∀ h ∈ m1, "node-" ++ h.name ++ ".pem" ∈ generateCertsFiles e1 m1
        ∧ "node-" ++ h.name ++ "-key.pem" ∈ generateCertsFiles e1 m1)
    ∧ (generateCertsFiles [hostA, hostB] [hostC]).toFinset.card = 12 := by
  refine ⟨?_, ?_, ?_, ?_, ?_, by decide⟩
  · exact perm_toFinset
      (((List.Perm.refl _).append (he.flatMap_right _)).append (hm.flatMap_right _))
  · exact List.mem_append_left _ (List.mem_append_left _ (by simp))
  · exact List.mem_append_left _ (List.mem_append_left _ (by simp))
  · intro h hh
    refine ⟨?_, ?_, ?_, ?_⟩ <;>
      exact List.mem_append_left _
        (List.mem_append_right _ (List.mem_flatMap.mpr ⟨h, hh, by simp⟩))
  · intro h hh
    exact ⟨List.mem_append_right _ (List.mem_flatMap.mpr ⟨h, hh, by simp⟩),
      List.mem_append_right _ (List.mem_flatMap.mpr ⟨h, hh, by simp⟩)⟩

/-- Witness for C6: permuting two member-role hosts yields the same set,
and the 2+1 scenario has 12 distinct filenames. -/
theorem generateCertsFiles_set_witness :
    (generateCertsFiles [hostA, hostB] [hostC]).toFinset =
      (generateCertsFiles [hostB, hostA] [hostC]).toFinset
    ∧ (generateCertsFiles [hostA, hostB] [hostC]).toFinset.card = 12 := by
  obtain ⟨h1, _, _, _, _, h6⟩ := generateCertsFiles_set [hostA, hostB] [hostB, hostA]
    [hostC] [hostC] (by decide) (by decide)
  exact ⟨h1, h6⟩

/-- C8: the probe. With the marker file present, `GetStatus` records as
member name the text after the first `"="` of the `ETCD_NAME` line read
from `/etc/etcd.env` (for a line `ETCD_NAME=v` that is `v`) and sets the
already-member flag true; with the marker absent it records
`"etcd-" ++ hostname` and sets the flag false; and when the existence
check or the read fails, that error is returned with neither the identity
nor the shared state written. -/
theorem getStatus_probe (r : Runner) (host : Host) (p : Option EtcdCluster)
    (hc : HostCache) :
    (∀ o, r.fileExistEtcdEnv = (true, none) → r.catEtcdEnvGrepName = (o, none) →
      ((GetStatus.Execute r host p hc).hostCache = ⟨some (goAfterFirstEq o), some true⟩
        ∧ (GetStatus.Execute r host p hc).err = none))
    ∧ (r.fileExistEtcdEnv = (false, none) →
      ((GetStatus.Execute r host p hc).hostCache =
          ⟨some ("etcd-" ++ host.name), some false⟩
        ∧ (GetStatus.Execute r host p hc).err = none))
    ∧ (∀ exist e, r.fileExistEtcdEnv = (exist, some e) →
      GetStatus.Execute r host p hc = ⟨some e, p, hc⟩)
    ∧ (∀ o e, r.fileExistEtcdEnv = (true, none) → r.catEtcdEnvGrepName = (o, some e) →
      GetStatus.Execute r host p hc = ⟨some e, p, hc⟩)
    ∧ (∀ v, goAfterFirstEq ("ETCD_NAME=" ++ v) = v) := by
  refine ⟨?_, ?_, ?_, ?_, goAfterFirstEq_etcdNameLine⟩
  · intro o hf hcat
    cases p <;> simp [GetStatus.Execute, hf, hcat]
  · intro hf
    cases p <;> simp [GetStatus.Execute, hf]
  · intro exist e hf
    simp [GetStatus.Execute, hf]
  · intro o e hf hcat
    simp [GetStatus.Execute, hf, hcat]

/-- Witness for C8 at concrete runners for each branch: marker present,
marker absent, failing existence check, failing read. -/
theorem getStatus_probe_witness :
    ((GetStatus.Execute runnerExisting hostA none ⟨none, none⟩).hostCache =
        ⟨some (goAfterFirstEq "ETCD_NAME=etcd-node1"), some true⟩
      ∧ (GetStatus.Execute runnerExisting hostA none ⟨none, none⟩).err = none)
    ∧ ((GetStatus.Execute freshRunner hostA none ⟨none, none⟩).hostCache =
        ⟨some ("etcd-" ++ hostA.name), some false⟩
      ∧ (GetStatus.Execute freshRunner hostA none ⟨none, none⟩).err = none)
    ∧ GetStatus.Execute runnerFileErr hostA none ⟨none, none⟩ =
        ⟨some "io error", none, ⟨none, none⟩⟩
    ∧ GetStatus.Execute runnerCatErr hostA none ⟨none, none⟩ =
        ⟨some "io error", none, ⟨none, none⟩⟩
    ∧ goAfterFirstEq ("ETCD_NAME=" ++ "etcd-node1") = "etcd-node1" :=
  ⟨(getStatus_probe runnerExisting hostA none ⟨none, none⟩).1 "ETCD_NAME=etcd-node1" rfl rfl,
   (getStatus_probe freshRunner hostA none ⟨none, none⟩).2.1 rfl,
   (getStatus_probe runnerFileErr hostA none ⟨none, none⟩).2.2.1 false "io error" rfl,
   (getStatus_probe runnerCatErr hostA none ⟨none, none⟩).2.2.2.1 "" "io error" rfl rfl,
   (getStatus_probe runnerExisting hostA none ⟨none, none⟩).2.2.2.2 "etcd-node1"⟩

/-- C1 counterexample: a single host that is already a member (marker file
present) probed by `GetStatus` and later configured by `GenerateConfig`
contributes two identical `peerAddresses` entries — after N = 1 host the
list has length 2, with a duplicated member name: `GetStatus` appends for
an already-member host and `GenerateConfig` appends again for every
host. -/
theorem peerAddresses_duplicate_for_existing_member :
    (runSteps initialRunState
        [OpStep.getStatus hostA runnerExisting, OpStep.generateConfig hostA]).pipeline =
      some ⟨true, "",
        ["etcd-node1=https://10.0.0.1:2380", "etcd-node1=https://10.0.0.1:2380"]⟩
    ∧ ¬ ((["etcd-node1=https://10.0.0.1:2380",
          "etcd-node1=https://10.0.0.1:2380"]).map entryMemberName).Nodup :=
  ⟨rfl, by decide⟩

/-- C1 (amended): when every processed host is fresh (marker file absent)
and host names are pairwise distinct (and contain no `'='`), a run that
probes every host with `GetStatus` and later configures every host with
`GenerateConfig` yields a `peerAddresses` list with exactly one entry per
host, in processing order, with no duplicate member names; moreover every
single step only extends the peer list — existing entries are never
removed or reordered. (As stated the claim fails for already-member
hosts, which contribute two entries with the same member name.) -/
theorem peerAddresses_accumulation (runners : Host → Runner) (hosts : List Host)
    (hfresh : ∀ h ∈ hosts, (runners h).fileExistEtcdEnv = (false, none))
    (hne : hosts ≠ [])
    (hnames : (hosts.map Host.name).Nodup)
    (hnoeq : ∀ h ∈ hosts, '=' ∉ h.name.data) :
    (∃ c : EtcdCluster,
        (runSteps initialRunState (twoPhase runners hosts)).pipeline = some c
      ∧ c.peerAddresses =
          hosts.map (fun h => peerEntry ("etcd-" ++ h.name) h.internalAddress)
      ∧ c.peerAddresses.length = hosts.length
      ∧ (c.peerAddresses.map entryMemberName).Nodup)
    ∧ (∀ (s : RunState) (st : OpStep) (c : EtcdCluster), s.pipeline = some c →
        ∃ c', (runStep s st).pipeline = some c'
          ∧ c.peerAddresses <+: c'.peerAddresses) := by
  constructor
  · obtain ⟨h, t, rfl⟩ : ∃ h t, hosts = h :: t := by
      cases hosts with
      | nil => exact absurd rfl hne
      | cons h t => exact ⟨h, t, rfl⟩
    rw [twoPhase, runSteps_append]
    have hp1 : (runSteps initialRunState
        ((h :: t).map (fun x => OpStep.getStatus x (runners x)))).pipeline =
        some ⟨false, "", []⟩ := by
      show (runSteps (runStep initialRunState (OpStep.getStatus h (runners h)))
        (t.map (fun x => OpStep.getStatus x (runners x)))).pipeline = _
      apply phase1_fresh_pipeline runners t _ _ (fun x hx => hfresh x (by simp [hx]))
      simp [runStep, initialRunState, getStatus_fresh_none _ _ _ (hfresh h (by simp))]
    have hc1 : ∀ x ∈ h :: t,
        ((runSteps initialRunState
          ((h :: t).map (fun x => OpStep.getStatus x (runners x)))).hostCaches
            x.name).etcdName = some ("etcd-" ++ x.name) := by
      intro x hx
      rw [phase1_fresh_caches runners (h :: t) initialRunState hfresh x.name]
      have hmem : x.name ∈ (h :: t).map Host.name := List.mem_map.mpr ⟨x, hx, rfl⟩
      rw [if_pos hmem]
    obtain ⟨c', hrun, hpeers⟩ := phase2_generateConfig (h :: t)
      (runSteps initialRunState ((h :: t).map (fun x => OpStep.getStatus x (runners x))))
      ⟨false, "", []⟩ hp1 hc1
    have hpeers' : c'.peerAddresses =
        (h :: t).map (fun x => peerEntry ("etcd-" ++ x.name) x.internalAddress) := by
      simpa using hpeers
    refine ⟨c', by rw [hrun], hpeers', by rw [hpeers']; simp, ?_⟩
    have hmap : c'.peerAddresses.map entryMemberName =
        ((h :: t).map Host.name).map (fun n => "etcd-" ++ n) := by
      rw [hpeers', List.map_map, List.map_map]
      apply List.map_congr_left
      intro x hx
      show entryMemberName (peerEntry ("etcd-" ++ x.name) x.internalAddress) = _
      refine entryMemberName_peerEntry _ _ ?_
      intro hmem
      exact hnoeq x hx (by simpa [String.data_append] using hmem)
    rw [hmap]
    exact List.Nodup.map (fun a b hab => string_append_left_cancel hab) hnames
  · intro s st c hp
    cases st with
    | getStatus host r =>
      show ∃ c', (GetStatus.Execute r host s.pipeline (s.hostCaches host.name)).pipeline
        = some c' ∧ _
      rw [hp]
      rcases hfe : r.fileExistEtcdEnv with ⟨exist, ferr⟩
      cases ferr with
      | some e => exact ⟨c, by simp [GetStatus.Execute, hfe], List.prefix_refl _⟩
      | none =>
        cases exist with
        | true =>
          rcases hce : r.catEtcdEnvGrepName with ⟨envOut, cerr⟩
          cases cerr with
          | some e => exact ⟨c, by simp [GetStatus.Execute, hfe, hce], List.prefix_refl _⟩
          | none =>
            exact ⟨{ c with
                clusterExist := true
                peerAddresses := c.peerAddresses ++
                  [peerEntry (goAfterFirstEq envOut) host.internalAddress] },
              by simp [GetStatus.Execute, hfe, hce], List.prefix_append _ _⟩
        | false => exact ⟨c, by simp [GetStatus.Execute, hfe], List.prefix_refl _⟩
    | generateAccessAddress etcdHosts =>
      exact ⟨{ c with
          accessAddresses := String.intercalate ","
            (etcdHosts.map (fun host => "https://" ++ host.internalAddress ++ ":2379")) },
        by simp [runStep, GenerateAccessAddress.Execute, hp], List.prefix_refl _⟩
    | generateConfig host =>
      cases hnm : (s.hostCaches host.name).etcdName with
      | none => exact ⟨c, by simp [runStep, GenerateConfig.Execute, hp, hnm], List.prefix_refl _⟩
      | some nm =>
        exact ⟨{ c with
            peerAddresses := c.peerAddresses ++ [peerEntry nm host.internalAddress] },
          by simp [runStep, hp, generateConfig_pipeline host _ c nm hnm],
          List.prefix_append _ _⟩
    | refreshConfig t host =>
      exact ⟨c, by simp [runStep, refreshConfig_pipeline, hp], List.prefix_refl _⟩

/-- Witness for C1 at two fresh hosts with distinct names. -/
theorem peerAddresses_accumulation_witness :
    (∃ c : EtcdCluster,
        (runSteps initialRunState
          (twoPhase (fun _ => freshRunner) [hostA, hostB])).pipeline = some c
      ∧ c.peerAddresses =
          [hostA, hostB].map (fun h => peerEntry ("etcd-" ++ h.name) h.internalAddress)
      ∧ c.peerAddresses.length = ([hostA, hostB] : List Host).length
      ∧ (c.peerAddresses.map entryMemberName).Nodup)
    ∧ (∀ (s : RunState) (st : OpStep) (c : EtcdCluster), s.pipeline = some c →
        ∃ c', (runStep s st).pipeline = some c'
          ∧ c.peerAddresses <+: c'.peerAddresses) :=
  peerAddresses_accumulation (fun _ => freshRunner) [hostA, hostB]
    (fun _ _ => rfl) (by decide) (by decide) (by decide)

end KubekeyEtcd
